import Mathlib

/-!
# Verification of the Visibility-Netsuite aggregation and comparison engine

Shallow embedding of the core of `app2.py`:

* the snapshot differ (`compare_versions`, lines 13-62, and
  `compare_versions_by_group`, lines 796-833),
* the monthly comparison of tab 4 (lines 968-999, built on `pd.merge`),
* the hierarchical pivot builder (`generate_report`, lines 65-133),
* the presentation formatter (`format_miles`, lines 136-139),
* the amount/date normalisation fragments of `process_netsuite_csv`
  (lines 321-334).

Monetary amounts are modelled as rationals (`ℚ`); a pandas `NaN`/`NaT` cell
is modelled by `Option`.  A canonical record carries the columns the engine
reads after normalisation: `Client`, `Año`, `Mes_Nombre`, `Trimestre`,
`Amount`.
-/

/-- One row of a canonical (normalised) table.  Field ↔ column:
`client` ↔ `Client`, `year` ↔ `Año`, `month` ↔ `Mes_Nombre`
(`none` models the `NaN` month name of an unparsable date),
`quarter` ↔ `Trimestre`, `amount` ↔ `Amount`. -/
structure Record where
  client : String
  year : Option Int
  month : Option String
  quarter : String
  amount : ℚ
deriving DecidableEq, Repr

abbrev Table := List Record

/-- The distinct elements of a list (one occurrence kept per value);
models forming a pandas group-by index or a Python `set` of keys whose
order is immaterial because every use below either sorts it or only asks
for membership. -/
def uniq {α : Type} [DecidableEq α] : List α → List α
  | [] => []
  | x :: xs => if x ∈ xs then uniq xs else x :: uniq xs

/-- `lst.index(x)` with a `999` fallback: the position of `x` in `lst`,
`999` when absent. -/
def indexLookup : List String → String → Nat → Nat
  | [], _, _ => 999
  | x :: xs, m, i => if x = m then i else indexLookup xs m (i + 1)

/-! ## Snapshot differ (`compare_versions`, `compare_versions_by_group`) -/

/-- A table already reduced to the grouping column and the amount:
one `(group key, Amount)` pair per source row.  This is the shape both
differ functions consume through `df.groupby(col)['Amount'].sum()`. -/
abbrev GTable := List (String × ℚ)

/-- `df.groupby(col)['Amount'].sum()` evaluated at one key `g`
(`current_totals.get(client, 0)`: an absent key yields `0`). -/
def gTotal (t : GTable) (g : String) : ℚ :=
  ((t.filter (fun p => p.1 = g)).map (fun p => p.2)).sum

/-- The value of the `change_percent` field: either a finite percentage or
the `float('inf')` sentinel produced when the previous amount is zero.
The code never produces a `NaN` percentage and never raises, which the
type reflects by having exactly these two constructors. -/
inductive Pct where
  | val : ℚ → Pct
  | posInf : Pct
deriving DecidableEq, Repr

/-- One entry of the `changes` dict built by `compare_versions` /
`compare_versions_by_group` (lines 44-49 / 819-824). -/
structure ChangeEntry where
  current_amount : ℚ
  previous_amount : ℚ
  change_amount : ℚ
  change_percent : Pct
deriving DecidableEq, Repr

/-- Lines 40-42 / 815-817:
`change_amount = current_amount - previous_amount`;
`change_percent = (change_amount / previous_amount * 100) if
previous_amount != 0 else float('inf')`. -/
def mkChange (cur prev : ℚ) : ChangeEntry :=
  { current_amount := cur
    previous_amount := prev
    change_amount := cur - prev
    change_percent :=
      if prev ≠ 0 then Pct.val ((cur - prev) / prev * 100) else Pct.posInf }

/-- The entry `compare_versions_by_group(current, previous, col)` stores for
group `g` (lines 811-824); the grouping column is already folded into the
`GTable`. -/
def compare_versions_by_group (current previous : GTable) (g : String) : ChangeEntry :=
  mkChange (gTotal current g) (gTotal previous g)

/-- Projection `df.groupby('Client')['Amount'].sum()` used by
`compare_versions` (line 27). -/
def clientTable (t : Table) : GTable := t.map (fun r => (r.client, r.amount))

/-- The entry `compare_versions(current, previous)` stores for client `c`
(lines 36-49). -/
def compare_versions (current previous : Table) (c : String) : ChangeEntry :=
  mkChange (gTotal (clientTable current) c) (gTotal (clientTable previous) c)

/-- The distinct group keys of a grouped table (`totals.index`). -/
def groupKeys (t : GTable) : List String := uniq (t.map (fun p => p.1))

/-- `all_groups = set(current_totals.index) | set(previous_totals.index)`
(line 809); Python set iteration order is unspecified, so only membership
in this list is meaningful. -/
def all_groups (current previous : GTable) : List String :=
  uniq (groupKeys current ++ groupKeys previous)

/-! ## Monthly comparison of tab 4 (lines 973-999) -/

/-- `df.groupby(['Año', 'Mes_Nombre'])['Amount'].sum().reset_index()`:
rows with a null year or month name are dropped by the grouping, and each
surviving `(year, month)` key appears once with the summed amount.  The
pandas key-sort order is irrelevant to the claims below, so keys are kept
in first-appearance order. -/
def monthlyGroups (t : Table) : List ((Int × String) × ℚ) :=
  let keys := uniq (t.filterMap (fun r =>
    match r.year, r.month with
    | some y, some m => some (y, m)
    | _, _ => none))
  keys.map (fun k =>
    (k, ((t.filter (fun r => r.year = some k.1 ∧ r.month = some k.2)).map
          (fun r => r.amount)).sum))

/-- `pd.merge(current_monthly, previous_monthly, on='Mes_Nombre',
suffixes=('_actual', '_anterior'))` (lines 984-989): the default *inner*
join on the month name.  Each output row carries the month name, the
current side's `(Año_actual, Amount_actual)` and the previous side's
`(Año_anterior, Amount_anterior)`. -/
def monthlyComparison (current previous : Table) :
    List (String × (Int × ℚ) × (Int × ℚ)) :=
  (monthlyGroups current).flatMap (fun a =>
    (monthlyGroups previous).filterMap (fun b =>
      if a.1.2 = b.1.2 then
        some (a.1.2, (a.1.1, a.2), (b.1.1, b.2))
      else none))

/-! ## Presentation formatter (`format_miles`, lines 136-139) -/

/-- Python `round(q)` (no digits argument): round half to even. -/
def roundHalf (q : ℚ) : ℤ :=
  if q - ⌊q⌋ < 1/2 then ⌊q⌋
  else if q - ⌊q⌋ > 1/2 then ⌊q⌋ + 1
  else if ⌊q⌋ % 2 = 0 then ⌊q⌋ else ⌊q⌋ + 1

/-- Lines 136-139: `if pd.isna(x) or x == 0: return ""` else
`f"{int(round(x/1000))}K"`.  `none` models a `NaN` cell. -/
def format_miles (x : Option ℚ) : String :=
  match x with
  | none => ""
  | some v => if v = 0 then "" else toString (roundHalf (v / 1000)) ++ "K"

/-! ## Amount normalisation (`process_netsuite_csv`, lines 321-324) -/

/-- The three chained single-character replacements of line 323:
`.str.replace('.', '').str.replace(',', '.').str.replace(' ', '')`. -/
def cleanAmount (l : List Char) : List Char :=
  ((l.filter (fun c => c ≠ '.')).map (fun c => if c = ',' then '.' else c)).filter
    (fun c => c ≠ ' ')

/-- Value of a digit list read in base 10. -/
def digitsToNat (l : List Char) : Nat :=
  l.foldl (fun a c => a * 10 + (c.toNat - 48)) 0

/-- Model of `pd.to_numeric(s, errors='coerce')` on an already
space-stripped cell: an optional sign, an integer part, an optional `.`
followed by a fractional part; anything else coerces to `NaN` (`none`). -/
def parseDecimal (l : List Char) : Option ℚ :=
  let (sign, l1) : ℚ × List Char :=
    match l with
    | '-' :: r => (-1, r)
    | '+' :: r => (1, r)
    | r => (1, r)
  let intPart := l1.takeWhile (fun c => c.isDigit)
  let rest := l1.dropWhile (fun c => c.isDigit)
  match rest with
  | [] => if intPart.isEmpty then none else some (sign * digitsToNat intPart)
  | '.' :: frac =>
    if frac.all (fun c => c.isDigit) ∧ ¬(intPart.isEmpty ∧ frac.isEmpty) then
      some (sign * ((digitsToNat intPart : ℚ) +
        (digitsToNat frac : ℚ) / (10 ^ frac.length)))
    else none
  | _ => none

/-- Line 323-324 composed: normalise the European textual amount and parse
it; an unparsable cell becomes `none` (`NaN`), never an error. -/
def parse_amount (s : String) : Option ℚ :=
  parseDecimal (cleanAmount s.toList)

/-! ## Date-derived quarter column (lines 326-334) -/

/-- Lines 331-334: `'Q' + quarter.fillna(0).astype(int).astype(str)` then
`replace('Q0', 'Sin Trimestre')`.  The input is the pandas `dt.quarter`
of the row's date: `none` models the `NaN` quarter of a `NaT` date, and
`some m` carries the month number `1..12` from which pandas derives the
quarter `(m - 1) / 3 + 1`. -/
def trimestreColumn (month : Option Nat) : String :=
  let q : Nat :=
    match month with
    | some m => (m - 1) / 3 + 1
    | none => 0
  let s := "Q" ++ toString q
  if s = "Q0" then "Sin Trimestre" else s

/-! ## Hierarchical pivot (`generate_report`, lines 65-133)

`pd.pivot_table(df, values='Amount', index='Client',
columns=['Trimestre', 'Mes_Nombre'], aggfunc='sum', fill_value=0)`:
the grouping drops every row whose `Mes_Nombre` is `NaN`, the client index
and the column pairs come out sorted, and an absent
`(client, quarter, month)` combination holds `0`. -/

/-- Lexicographic comparison of character lists by Unicode code point:
the order Python/pandas uses on strings. -/
def charListLe : List Char → List Char → Bool
  | [], _ => true
  | _ :: _, [] => false
  | a :: as, b :: bs =>
    if a.toNat < b.toNat then true
    else if b.toNat < a.toNat then false
    else charListLe as bs

/-- String order by Unicode code point (the sort order of the pandas
group-by index). -/
def strLe (a b : String) : Bool := charListLe a.toList b.toList

/-- The rows that take part in the pivot grouping: pandas drops any row
with a `NaN` (`none`) month name from the group keys. -/
def validRows (t : Table) : Table := t.filter (fun r => r.month.isSome)

/-- One pivot cell before totals: the summed `Amount` of a
`(client, quarter, month)` group, `0` when the group is absent
(`fill_value=0`). -/
def cellAmount (t : Table) (c q m : String) : ℚ :=
  (((validRows t).filter (fun r => r.client = c ∧ r.quarter = q ∧ r.month = some m)).map
    (fun r => r.amount)).sum

/-- `month_order` (lines 80-81). -/
def month_order : List String :=
  ["January", "February", "March", "April", "May", "June",
   "July", "August", "September", "October", "November", "December"]

/-- The sort key of line 94: `month_order.index(x) if x in month_order
else 999`. -/
def monthKey (m : String) : Nat := indexLookup month_order m 0

/-- `quarter_order` (line 85). -/
def quarter_order : List String := ["Q1", "Q2", "Q3", "Q4"]

/-- Position of a quarter label in `quarter_order` (`999` when absent);
only used to state ordering facts. -/
def quarterKey (q : String) : Nat := indexLookup quarter_order q 0

/-- `pivot_table.columns.levels[0]`: the sorted distinct quarters of the
grouped rows. -/
def quarterLevels (t : Table) : List String :=
  List.insertionSort (fun a b => strLe a b = true) (uniq ((validRows t).map (fun r => r.quarter)))

/-- `quarter_cols = [q for q in quarter_order if q in
pivot_table.columns.levels[0]]` (line 86). -/
def quarter_cols (t : Table) : List String :=
  quarter_order.filter (fun q => q ∈ quarterLevels t)

/-- `pivot_table[q].columns`: the sorted distinct month names appearing
under quarter `q`. -/
def pivotMonths (t : Table) (q : String) : List String :=
  List.insertionSort (fun a b => strLe a b = true)
    (uniq (((validRows t).filter (fun r => r.quarter = q)).filterMap (fun r => r.month)))

/-- `q_months = [m for m in pivot_table[q].columns if m != 'Total']`
(lines 92 and 107). -/
def q_months (t : Table) (q : String) : List String :=
  (pivotMonths t q).filter (fun m => m ≠ "Total")

/-- `q_months_ordered = sorted(q_months, key=...)` (line 94): a stable
sort by the calendar month key. -/
def q_months_ordered (t : Table) (q : String) : List String :=
  List.insertionSort (fun a b => monthKey a ≤ monthKey b) (q_months t q)

/-- `new_cols` (lines 89-97): the `(quarter, month)` data columns, quarter
by quarter, months in calendar order. -/
def new_cols (t : Table) : List (String × String) :=
  (quarter_cols t).flatMap (fun q => (q_months_ordered t q).map (fun m => (q, m)))

/-- `pivot_table[('Total', quarter)] =
pivot_table[quarter][quarter_months].sum(axis=1)` (line 110). -/
def quarterTotal (t : Table) (c q : String) : ℚ :=
  ((q_months t q).map (fun m => cellAmount t c q m)).sum

/-- `total_quarter_cols` (lines 100-114): one `('Total', q)` column per
quarter whose month list is non-empty. -/
def total_quarter_cols (t : Table) : List (String × String) :=
  ((quarter_cols t).filter (fun q => q_months t q ≠ [])).map (fun q => ("Total", q))

/-- `pivot_table[('Total', 'Anual')] = pivot_table[monthly_cols].sum(axis=1)`
(lines 117-118): the sum over the month columns only. -/
def anual (t : Table) (c : String) : ℚ :=
  ((new_cols t).map (fun p => cellAmount t c p.1 p.2)).sum

/-- `final_cols` (line 124). -/
def final_cols (t : Table) : List (String × String) :=
  new_cols t ++ total_quarter_cols t ++ [("Total", "Anual")]

/-- The pivot's client index: sorted distinct clients of the grouped rows. -/
def clients (t : Table) : List String :=
  List.insertionSort (fun a b => strLe a b = true) (uniq ((validRows t).map (fun r => r.client)))

/-- `pivot_table.sort_values(('Total', 'Anual'), ascending=False)`
(line 121).  pandas sorts with the default `kind='quicksort'` (numpy
introsort), which is not stable, so the program fixes no relative order
for clients with equal annual totals; a deterministic model must still
pick one implementation, and this one uses a stable insertion sort (what
numpy's introsort degenerates to below its small-array threshold).  No
universal theorem below depends on this model's tie order — only the
descending order and the row multiset, which any correct sort produces —
and concrete evaluations are confined to two- and three-client tables,
on which the program's sort is deterministic too. -/
def sortedClients (t : Table) : List String :=
  List.insertionSort (fun a b => anual t b ≤ anual t a) (clients t)

/-- The value a client row holds in a final column: data columns read the
grouped cell, `('Total', q)` reads the quarter subtotal of line 110 and
`('Total', 'Anual')` the annual total of line 118. -/
def finalCellValue (t : Table) (c : String) (p : String × String) : ℚ :=
  if p.1 = "Total" then
    if p.2 = "Anual" then anual t c else quarterTotal t c p.2
  else cellAmount t c p.1 p.2

/-- The finished pivot table: the ordered final columns, the ordered row
labels, and the cell accessor. -/
structure Pivot where
  cols : List (String × String)
  rowLabels : List String
  cell : String → String × String → ℚ

/-- Lines 70-131 composed.  `pivot_table.loc['Total'] = pivot_table.sum()`
(line 131) appends the label `'Total'` when no such row exists and
otherwise overwrites the existing row in place; in both cases the `'Total'`
row holds the column-wise sum over the client rows present before the
assignment. -/
def mkPivot (t : Table) : Pivot where
  cols := final_cols t
  rowLabels :=
    if "Total" ∈ sortedClients t then sortedClients t
    else sortedClients t ++ ["Total"]
  cell := fun label p =>
    if label = "Total" then ((sortedClients t).map (fun c => finalCellValue t c p)).sum
    else finalCellValue t label p

/-- `generate_report` (lines 65-133): `None` on an empty input, otherwise
the finished pivot. -/
def generate_report (t : Table) : Option Pivot :=
  if t = [] then none else some (mkPivot t)

/-! ## Concrete inputs used by the witnesses and counterexamples -/

/-- The end-to-end scenario of the spec: Acme 1500 (January), Acme 500
(February), Beta 2000 (March), all in Q1. -/
def exTable : Table :=
  [⟨"Acme", some 2024, some "January", "Q1", 1500⟩,
   ⟨"Acme", some 2024, some "February", "Q1", 500⟩,
   ⟨"Beta", some 2024, some "March", "Q1", 2000⟩]

/-- A table whose months are inserted in the order March, January,
February. -/
def exShuffled : Table :=
  [⟨"Acme", some 2024, some "March", "Q1", 300⟩,
   ⟨"Acme", some 2024, some "January", "Q1", 100⟩,
   ⟨"Acme", some 2024, some "February", "Q1", 200⟩]

/-- A table with a client literally named `"Total"`. -/
def exTotalClient : Table :=
  [⟨"Total", some 2024, some "January", "Q1", 50⟩,
   ⟨"A", some 2024, some "January", "Q1", 10⟩]

/-- Two clients with equal annual totals, inserted Beta first. -/
def exTieOrder : Table :=
  [⟨"Beta", some 2024, some "January", "Q1", 2000⟩,
   ⟨"Acme", some 2024, some "February", "Q1", 2000⟩]

/-- A valid January row for client A plus a row for client B whose date
was unparsable (`NaT`): null month, quarter `"Sin Trimestre"`. -/
def exSinTrimestre : Table :=
  [⟨"A", some 2024, some "January", "Q1", 100⟩,
   ⟨"B", none, none, "Sin Trimestre", 50⟩]

/-- The monthless row of `exSinTrimestre`. -/
def exSinTrimestreRow : Record := ⟨"B", none, none, "Sin Trimestre", 50⟩

/-- Current snapshot holding only January data. -/
def exMonthCur : Table := [⟨"A", some 2024, some "January", "Q1", 100⟩]

/-- Previous snapshot holding only February data. -/
def exMonthPrev : Table := [⟨"B", some 2024, some "February", "Q1", 50⟩]

/-- The spec's diff end-to-end current side: Acme 2000, Beta 2000. -/
def exDiffCur : GTable := [("Acme", 2000), ("Beta", 2000)]

/-- The spec's diff end-to-end previous side: Acme 1500, Gamma 300. -/
def exDiffPrev : GTable := [("Acme", 1500), ("Gamma", 300)]

/-- Record-table version of `exDiffCur`. -/
def exDiffCurT : Table :=
  [⟨"Acme", some 2024, some "January", "Q1", 2000⟩,
   ⟨"Beta", some 2024, some "January", "Q1", 2000⟩]

/-- Record-table version of `exDiffPrev`. -/
def exDiffPrevT : Table :=
  [⟨"Acme", some 2024, some "January", "Q1", 1500⟩,
   ⟨"Gamma", some 2024, some "January", "Q1", 300⟩]

/-! ## Helper lemmas -/

theorem mem_uniq {α : Type} [DecidableEq α] {a : α} :
    ∀ {l : List α}, a ∈ uniq l ↔ a ∈ l := by
  intro l
  induction l with
  | nil => simp [uniq]
  | cons x xs ih =>
    by_cases hx : x ∈ xs
    · rw [uniq, if_pos hx]
      simp only [List.mem_cons, ih]
      exact ⟨Or.inr, fun h => h.elim (fun he => he ▸ hx) id⟩
    · rw [uniq, if_neg hx]
      simp [ih]

theorem gTotal_eq_zero {t : GTable} {g : String} (h : g ∉ groupKeys t) :
    gTotal t g = 0 := by
  unfold groupKeys at h
  rw [mem_uniq] at h
  unfold gTotal
  have hnil : t.filter (fun p => p.1 = g) = [] := by
    rw [List.filter_eq_nil_iff]
    intro p hp
    simp only [decide_eq_true_eq]
    intro he
    exact h (List.mem_map.mpr ⟨p, hp, he⟩)
  rw [hnil]
  rfl

/-! ## Claim theorems: the snapshot differ -/

/-- Claim C3: for every pair of input tables and every group, the diff
(`compare_versions` and `compare_versions_by_group`) yields
`change_percent = +∞` whenever `previous_amount = 0`, including the `0/0`
case.  No division error or `NaN` can occur: the embedding's `Pct` type
(the codomain of the percentage computation) has only finite values and
`posInf`. -/
theorem C3_zero_previous_sentinel (current previous : GTable)
    (curT prevT : Table) (g c : String)
    (h1 : gTotal previous g = 0) (h2 : gTotal (clientTable prevT) c = 0) :
    (compare_versions_by_group current previous g).change_percent = Pct.posInf ∧
    (compare_versions_by_group current previous g).previous_amount = 0 ∧
    (compare_versions curT prevT c).change_percent = Pct.posInf := by
  refine ⟨?_, ?_, ?_⟩ <;>
    simp [compare_versions_by_group, compare_versions, mkChange, h1, h2]

/-- Witness for C3: previous `0`, current `500` gives `+∞`; the `0/0`
case (both snapshots empty) also gives `+∞`. -/
theorem C3_zero_previous_sentinel_witness :
    gTotal ([] : GTable) "X" = 0 ∧
    (compare_versions_by_group [("X", 500)] [] "X").change_percent = Pct.posInf ∧
    (compare_versions_by_group [("X", 500)] [] "X").current_amount = 500 ∧
    (compare_versions_by_group [] [] "X").change_percent = Pct.posInf := by
  have h1 := C3_zero_previous_sentinel [("X", 500)] [] [] [] "X" "X" rfl rfl
  have h2 := C3_zero_previous_sentinel [] [] [] [] "X" "X" rfl rfl
  refine ⟨rfl, h1.1, ?_, h2.1⟩
  norm_num +decide [compare_versions_by_group, mkChange, gTotal]

/-- Claim C8 (confirmed): swapping the two snapshots negates every
group's `change_amount` exactly, and away from the `+∞` sentinel the two
`change_percent` values `p₁, p₂` satisfy the reciprocal-scaling relation
`p₁ * previous = -(p₂ * current)`. -/
theorem C8_diff_symmetry (A B : GTable) (tA tB : Table) (g c : String) :
    (compare_versions_by_group A B g).change_amount
        = -(compare_versions_by_group B A g).change_amount ∧
    (compare_versions tA tB c).change_amount
        = -(compare_versions tB tA c).change_amount ∧
    (gTotal B g ≠ 0 → gTotal A g ≠ 0 →
      (compare_versions_by_group A B g).change_percent
          = Pct.val ((gTotal A g - gTotal B g) / gTotal B g * 100) ∧
      (compare_versions_by_group B A g).change_percent
          = Pct.val ((gTotal B g - gTotal A g) / gTotal A g * 100) ∧
      ((gTotal A g - gTotal B g) / gTotal B g * 100) * gTotal B g
          = -(((gTotal B g - gTotal A g) / gTotal A g * 100) * gTotal A g)) := by
  refine ⟨?_, ?_, fun hB hA => ⟨?_, ?_, ?_⟩⟩
  · simp only [compare_versions_by_group, mkChange]
    ring
  · simp only [compare_versions, mkChange]
    ring
  · simp [compare_versions_by_group, mkChange, hB]
  · simp [compare_versions_by_group, mkChange, hA]
  · field_simp
    ring

/-- Witness for C8 at current `g ↦ 200`, previous `g ↦ 100`:
the changes are `+100` and `-100`, the percentages `+100%` and `-50%`,
and `100 * 100 = -(-50 * 200)`. -/
theorem C8_diff_symmetry_witness :
    (compare_versions_by_group [("g", 200)] [("g", 100)] "g").change_amount
        = -(compare_versions_by_group [("g", 100)] [("g", 200)] "g").change_amount ∧
    (compare_versions_by_group [("g", 200)] [("g", 100)] "g").change_percent
        = Pct.val 100 ∧
    (compare_versions_by_group [("g", 100)] [("g", 200)] "g").change_percent
        = Pct.val (-50) ∧
    ((100 : ℚ) * 100 = -((-50) * 200)) := by
  have h := C8_diff_symmetry [("g", 200)] [("g", 100)] [] [] "g" "c"
  have hp := h.2.2 (by norm_num +decide [gTotal]) (by norm_num +decide [gTotal])
  refine ⟨h.1, ?_, ?_, by norm_num⟩
  · rw [hp.1]
    norm_num +decide [gTotal]
  · rw [hp.2.1]
    norm_num +decide [gTotal]

/-- Claim C4 (amended part): for the groupings that go through
`compare_versions` / `compare_versions_by_group` (client, project code,
partner, PM), every key of either snapshot appears in the union
`all_groups`, and a key missing from one side gets amount `0` there. -/
theorem C4_group_union (current previous : GTable) (tA tB : Table) (g c : String)
    (hg : g ∈ groupKeys current ∨ g ∈ groupKeys previous)
    (hc : c ∈ groupKeys (clientTable tA) ∨ c ∈ groupKeys (clientTable tB)) :
    g ∈ all_groups current previous ∧
    (g ∉ groupKeys previous →
      (compare_versions_by_group current previous g).previous_amount = 0) ∧
    (g ∉ groupKeys current →
      (compare_versions_by_group current previous g).current_amount = 0) ∧
    c ∈ all_groups (clientTable tA) (clientTable tB) ∧
    (c ∉ groupKeys (clientTable tB) →
      (compare_versions tA tB c).previous_amount = 0) ∧
    (c ∉ groupKeys (clientTable tA) →
      (compare_versions tA tB c).current_amount = 0) := by
  refine ⟨?_, fun h => ?_, fun h => ?_, ?_, fun h => ?_, fun h => ?_⟩
  · unfold all_groups
    rw [mem_uniq, List.mem_append]
    exact hg
  · simp [compare_versions_by_group, mkChange, gTotal_eq_zero h]
  · simp [compare_versions_by_group, mkChange, gTotal_eq_zero h]
  · unfold all_groups
    rw [mem_uniq, List.mem_append]
    exact hc
  · simp [compare_versions, mkChange, gTotal_eq_zero h]
  · simp [compare_versions, mkChange, gTotal_eq_zero h]

/-- Witness for C4 on the spec's diff scenario: `Beta` (current only) and
`Gamma` (previous only) both survive into the union with the missing side
at `0`. -/
theorem C4_group_union_witness :
    "Beta" ∈ all_groups exDiffCur exDiffPrev ∧
    (compare_versions_by_group exDiffCur exDiffPrev "Beta").previous_amount = 0 ∧
    "Gamma" ∈ all_groups (clientTable exDiffCurT) (clientTable exDiffPrevT) ∧
    (compare_versions exDiffCurT exDiffPrevT "Gamma").current_amount = 0 := by
  have h := C4_group_union exDiffCur exDiffPrev exDiffCurT exDiffPrevT "Beta" "Gamma"
    (Or.inl (by decide)) (Or.inr (by decide))
  exact ⟨h.1, h.2.1 (by decide), h.2.2.2.1, h.2.2.2.2.2 (by decide)⟩

/-- Counterexample for C4 as stated: the month dimension is compared with
an *inner* `pd.merge` on the month name, so a month present in only one
snapshot is dropped.  With January only in the current snapshot and
February only in the previous one the comparison output is empty. -/
theorem C4_month_comparison_drops_groups :
    monthlyComparison exMonthCur exMonthPrev = [] ∧
    monthlyGroups exMonthCur = [((2024, "January"), 100)] ∧
    monthlyGroups exMonthPrev = [((2024, "February"), 50)] := by
  refine ⟨?_, ?_, ?_⟩ <;>
    norm_num +decide [monthlyComparison, monthlyGroups, uniq, exMonthCur, exMonthPrev]

/-! ## Claim theorems: normaliser and formatter -/

/-- Claim C7: the amount normalisation strips thousands-separator
periods, turns the decimal comma into a point and removes spaces, then
parses; the spec's three examples come out as `1500`, `500` and `2000`,
an unparsable cell becomes `none` (`NaN`) rather than being dropped or
raising, and no comma or space ever survives the cleaning. -/
theorem C7_amount_normalisation :
    parse_amount "1.500,00" = some 1500 ∧
    parse_amount "500,00" = some 500 ∧
    parse_amount "2.000,00" = some 2000 ∧
    parse_amount "N/A" = none ∧
    ∀ l : List Char, ',' ∉ cleanAmount l ∧ ' ' ∉ cleanAmount l := by
  refine ⟨?_, ?_, ?_, ?_, fun l => ⟨?_, ?_⟩⟩
  · norm_num +decide [parse_amount, parseDecimal, cleanAmount, digitsToNat,
      show Char.toNat '1' = 49 from rfl, show Char.toNat '5' = 53 from rfl,
      show Char.toNat '0' = 48 from rfl, show Char.toNat '2' = 50 from rfl]
  · norm_num +decide [parse_amount, parseDecimal, cleanAmount, digitsToNat,
      show Char.toNat '1' = 49 from rfl, show Char.toNat '5' = 53 from rfl,
      show Char.toNat '0' = 48 from rfl, show Char.toNat '2' = 50 from rfl]
  · norm_num +decide [parse_amount, parseDecimal, cleanAmount, digitsToNat,
      show Char.toNat '1' = 49 from rfl, show Char.toNat '5' = 53 from rfl,
      show Char.toNat '0' = 48 from rfl, show Char.toNat '2' = 50 from rfl]
  · norm_num +decide [parse_amount, parseDecimal, cleanAmount, digitsToNat,
      show Char.toNat '1' = 49 from rfl, show Char.toNat '5' = 53 from rfl,
      show Char.toNat '0' = 48 from rfl, show Char.toNat '2' = 50 from rfl]
  · intro h
    have h1 := (List.mem_filter.mp h).1
    obtain ⟨c, _, he⟩ := List.mem_map.mp h1
    by_cases hcc : c = ','
    · rw [hcc] at he
      simp at he
    · rw [if_neg hcc] at he
      exact hcc he
  · intro h
    have h2 := (List.mem_filter.mp h).2
    simp at h2

/-- Claim C10: `format_miles` renders `NaN` and an exact `0` as the empty
string (so a zero cell and a missing cell are indistinguishable), and any
other value as the half-to-even rounding of `x / 1000` followed by `"K"`. -/
theorem C10_format_miles (x : ℚ) (hx : x ≠ 0) :
    format_miles none = "" ∧
    format_miles (some 0) = "" ∧
    format_miles none = format_miles (some 0) ∧
    format_miles (some x) = toString (roundHalf (x / 1000)) ++ "K" := by
  refine ⟨rfl, ?_, ?_, ?_⟩
  · simp [format_miles]
  · simp [format_miles]
  · simp [format_miles, hx]

/-- Witness for C10: `2500` and `1500` both render as `"2K"` (half-even
rounding of `2.5` and `1.5`), while `0` and `NaN` both render as `""`. -/
theorem C10_format_miles_witness :
    format_miles (some 2500) = "2K" ∧
    format_miles (some 1500) = "2K" ∧
    format_miles none = "" ∧
    format_miles (some 0) = "" := by
  have h1 := C10_format_miles 2500 (by norm_num)
  have h2 := C10_format_miles 1500 (by norm_num)
  refine ⟨?_, ?_, h1.1, h1.2.1⟩
  · rw [h1.2.2.2]
    have hf : ⌊(2500 : ℚ) / 1000⌋ = 2 := by
      rw [Int.floor_eq_iff]
      norm_num
    have hr : roundHalf (2500 / 1000) = 2 := by
      norm_num [roundHalf, hf]
    rw [hr]
    rfl
  · rw [h2.2.2.2]
    have hf : ⌊(1500 : ℚ) / 1000⌋ = 1 := by
      rw [Int.floor_eq_iff]
      norm_num
    have hr : roundHalf (1500 / 1000) = 2 := by
      norm_num [roundHalf, hf]
    rw [hr]
    rfl

/-! ## Helper lemmas for the pivot -/

theorem sum_map_add {β : Type} (l : List β) (f g : β → ℚ) :
    (l.map (fun b => f b + g b)).sum = (l.map f).sum + (l.map g).sum := by
  induction l with
  | nil => simp
  | cons x xs ih =>
    simp only [List.map_cons, List.sum_cons, ih]
    ring

theorem sum_map_swap {α β : Type} (l1 : List α) (l2 : List β) (f : α → β → ℚ) :
    (l1.map (fun a => (l2.map (fun b => f a b)).sum)).sum
      = (l2.map (fun b => (l1.map (fun a => f a b)).sum)).sum := by
  induction l1 with
  | nil => simp
  | cons x xs ih =>
    simp only [List.map_cons, List.sum_cons, ih, sum_map_add]

theorem mem_new_cols {t : Table} {p : String × String} (hp : p ∈ new_cols t) :
    p.1 ∈ quarter_cols t ∧ p.2 ∈ q_months_ordered t p.1 := by
  unfold new_cols at hp
  obtain ⟨q, hq, hm⟩ := List.mem_flatMap.mp hp
  obtain ⟨m, hm2, he⟩ := List.mem_map.mp hm
  cases he
  exact ⟨hq, hm2⟩

theorem quarter_cols_mem_order {t : Table} {q : String} (h : q ∈ quarter_cols t) :
    q ∈ quarter_order :=
  (List.mem_filter.mp h).1

theorem quarter_order_ne {q : String} (h : q ∈ quarter_order) :
    q ≠ "Total" ∧ q ≠ "Anual" := by
  simp only [quarter_order, List.mem_cons, List.not_mem_nil, or_false] at h
  rcases h with rfl | rfl | rfl | rfl <;> exact ⟨by decide, by decide⟩

theorem finalCellValue_data (t : Table) (c : String) {p : String × String}
    (hp : p.1 ≠ "Total") : finalCellValue t c p = cellAmount t c p.1 p.2 := by
  unfold finalCellValue
  rw [if_neg hp]

theorem finalCellValue_quarter (t : Table) (c : String) {q : String}
    (hq : q ≠ "Anual") : finalCellValue t c ("Total", q) = quarterTotal t c q := by
  unfold finalCellValue
  simp [hq]

theorem finalCellValue_anual (t : Table) (c : String) :
    finalCellValue t c ("Total", "Anual") = anual t c := by
  unfold finalCellValue
  simp

theorem mkPivot_cell_total (t : Table) (p : String × String) :
    (mkPivot t).cell "Total" p
      = ((sortedClients t).map (fun c => finalCellValue t c p)).sum := by
  simp [mkPivot]

theorem mkPivot_cell_client (t : Table) {c : String} (hc : c ≠ "Total")
    (p : String × String) : (mkPivot t).cell c p = finalCellValue t c p := by
  simp [mkPivot, hc]

theorem generate_report_eq {t : Table} {P : Pivot}
    (hP : generate_report t = some P) : mkPivot t = P := by
  have hne : ¬ t = [] := by
    intro h
    rw [generate_report, if_pos h] at hP
    cases hP
  rw [generate_report, if_neg hne] at hP
  exact Option.some.inj hP

/-- Per-row total consistency over the raw cell values: the annual value
is the sum of the month-column values, and each quarter subtotal is the
sum of its month-column values. -/
theorem row_consistency (t : Table) (c : String) :
    finalCellValue t c ("Total", "Anual")
        = ((new_cols t).map (fun p => finalCellValue t c p)).sum ∧
    ∀ q ∈ quarter_cols t,
      finalCellValue t c ("Total", q)
          = ((q_months_ordered t q).map (fun m => finalCellValue t c (q, m))).sum := by
  constructor
  · rw [finalCellValue_anual]
    unfold anual
    apply congrArg
    apply List.map_congr_left
    intro p hp
    have h1 := (quarter_order_ne (quarter_cols_mem_order (mem_new_cols hp).1)).1
    rw [finalCellValue_data t c h1]
  · intro q hq
    have hqn := quarter_order_ne (quarter_cols_mem_order hq)
    rw [finalCellValue_quarter t c hqn.2]
    unfold quarterTotal
    have hmap : (q_months_ordered t q).map (fun m => finalCellValue t c (q, m))
        = (q_months_ordered t q).map (fun m => cellAmount t c q m) := by
      apply List.map_congr_left
      intro m _
      exact finalCellValue_data t c hqn.1
    rw [hmap]
    exact (List.Perm.sum_eq (List.Perm.map _
      (List.perm_insertionSort _ _))).symm

/-! ## Claim theorems: the pivot -/

/-- Claim C1: in the pivot returned by `generate_report`, every row's
`('Total', 'Anual')` cell is the sum of that row's month cells only (the
quarter subtotal columns are excluded), and for every quarter present the
`('Total', q)` cell is the sum of that row's month cells under `q`.  This
holds for every row label, the grand `'Total'` row included. -/
theorem C1_pivot_totals (t : Table) (P : Pivot)
    (hP : generate_report t = some P) (label : String) :
    P.cell label ("Total", "Anual")
        = ((new_cols t).map (fun p => P.cell label p)).sum ∧
    ∀ q ∈ quarter_cols t,
      P.cell label ("Total", q)
          = ((q_months_ordered t q).map (fun m => P.cell label (q, m))).sum := by
  obtain rfl := generate_report_eq hP
  by_cases hl : label = "Total"
  · subst hl
    constructor
    · rw [mkPivot_cell_total]
      have h1 : ((sortedClients t).map
            (fun c => finalCellValue t c ("Total", "Anual"))).sum
          = ((sortedClients t).map
            (fun c => ((new_cols t).map (fun p => finalCellValue t c p)).sum)).sum := by
        apply congrArg
        exact List.map_congr_left (fun c _ => (row_consistency t c).1)
      rw [h1, sum_map_swap]
      apply congrArg
      apply List.map_congr_left
      intro p _
      rw [mkPivot_cell_total]
    · intro q hq
      rw [mkPivot_cell_total]
      have h1 : ((sortedClients t).map
            (fun c => finalCellValue t c ("Total", q))).sum
          = ((sortedClients t).map (fun c =>
              ((q_months_ordered t q).map (fun m => finalCellValue t c (q, m))).sum)).sum := by
        apply congrArg
        exact List.map_congr_left (fun c _ => (row_consistency t c).2 q hq)
      rw [h1, sum_map_swap]
      apply congrArg
      apply List.map_congr_left
      intro m _
      rw [mkPivot_cell_total]
  · constructor
    · rw [mkPivot_cell_client t hl, (row_consistency t label).1]
      apply congrArg
      apply List.map_congr_left
      intro p _
      rw [mkPivot_cell_client t hl]
    · intro q hq
      rw [mkPivot_cell_client t hl, (row_consistency t label).2 q hq]
      apply congrArg
      apply List.map_congr_left
      intro m _
      rw [mkPivot_cell_client t hl]

/-- Witness for C1 on the spec's end-to-end table, instantiated at the
`Acme` row and at the grand `Total` row: `Anual` is `2000` resp. `4000`,
equal to the corresponding sums over the month columns, and `Total.Q1`
matches the sum over Q1's months. -/
theorem C1_pivot_totals_witness :
    generate_report exTable = some (mkPivot exTable) ∧
    (mkPivot exTable).cell "Acme" ("Total", "Anual")
        = ((new_cols exTable).map (fun p => (mkPivot exTable).cell "Acme" p)).sum ∧
    (mkPivot exTable).cell "Acme" ("Total", "Q1")
        = ((q_months_ordered exTable "Q1").map
            (fun m => (mkPivot exTable).cell "Acme" ("Q1", m))).sum ∧
    (mkPivot exTable).cell "Total" ("Total", "Anual")
        = ((new_cols exTable).map (fun p => (mkPivot exTable).cell "Total" p)).sum ∧
    (mkPivot exTable).cell "Acme" ("Total", "Anual") = 2000 ∧
    (mkPivot exTable).cell "Total" ("Total", "Anual") = 4000 := by
  have hA := C1_pivot_totals exTable (mkPivot exTable) rfl "Acme"
  have hT := C1_pivot_totals exTable (mkPivot exTable) rfl "Total"
  refine ⟨rfl, hA.1, hA.2 "Q1" (by decide), hT.1, ?_, ?_⟩
  · norm_num +decide [mkPivot, finalCellValue, anual, quarterTotal, cellAmount, new_cols,
      quarter_cols, quarterLevels, q_months_ordered, q_months, pivotMonths, validRows,
      strLe, charListLe, sortedClients, clients, month_order, quarter_order, monthKey,
      indexLookup, uniq, List.insertionSort, List.orderedInsert, exTable]
  · norm_num +decide [mkPivot, finalCellValue, anual, quarterTotal, cellAmount, new_cols,
      quarter_cols, quarterLevels, q_months_ordered, q_months, pivotMonths, validRows,
      strLe, charListLe, sortedClients, clients, month_order, quarter_order, monthKey,
      indexLookup, uniq, List.insertionSort, List.orderedInsert, exTable]

theorem sortedClients_perm (t : Table) : List.Perm (sortedClients t) (clients t) :=
  List.perm_insertionSort _ _

theorem sortedClients_sorted (t : Table) :
    (sortedClients t).Pairwise (fun a b => anual t b ≤ anual t a) := by
  haveI : IsTotal String (fun a b => anual t b ≤ anual t a) :=
    ⟨fun a b => le_total (anual t b) (anual t a)⟩
  haveI : IsTrans String (fun a b => anual t b ≤ anual t a) :=
    ⟨fun _ _ _ hab hbc => le_trans hbc hab⟩
  exact List.sorted_insertionSort _ _

/-- Claim C2 (amended part): provided no client is literally named
`"Total"`, the pivot has exactly one `"Total"` row, it is the last row,
it equals the column-wise sum of the client rows in every column, and the
client rows above it are sorted by `('Total', 'Anual')` descending (the
`"Total"` row is appended after the sort). -/
theorem C2_total_row (t : Table) (P : Pivot) (hP : generate_report t = some P)
    (hT : "Total" ∉ clients t) :
    P.rowLabels.count "Total" = 1 ∧
    P.rowLabels.getLast? = some "Total" ∧
    (∀ p, P.cell "Total" p
        = ((P.rowLabels.filter (fun c => c ≠ "Total")).map
            (fun c => P.cell c p)).sum) ∧
    (P.rowLabels.filter (fun c => c ≠ "Total")).Pairwise
      (fun a b => P.cell b ("Total", "Anual") ≤ P.cell a ("Total", "Anual")) := by
  obtain rfl := generate_report_eq hP
  have hT' : "Total" ∉ sortedClients t :=
    fun h => hT ((sortedClients_perm t).mem_iff.mp h)
  have hrl : (mkPivot t).rowLabels = sortedClients t ++ ["Total"] := by
    simp [mkPivot, hT']
  have hfilter : (mkPivot t).rowLabels.filter (fun c => c ≠ "Total")
      = sortedClients t := by
    rw [hrl, List.filter_append]
    have h1 : (sortedClients t).filter (fun c => c ≠ "Total") = sortedClients t := by
      apply List.filter_eq_self.mpr
      intro a ha
      simp only [decide_eq_true_eq]
      exact fun he => hT' (he ▸ ha)
    have h2 : (["Total"] : List String).filter (fun c => c ≠ "Total") = [] := by
      simp
    rw [h1, h2, List.append_nil]
  refine ⟨?_, ?_, ?_, ?_⟩
  · rw [hrl, List.count_append]
    rw [List.count_eq_zero.mpr hT']
    simp
  · rw [hrl]
    exact List.getLast?_concat _
  · intro p
    rw [hfilter, mkPivot_cell_total]
    apply congrArg
    apply List.map_congr_left
    intro c hc
    rw [mkPivot_cell_client t (fun he => hT' (he ▸ hc))]
  · rw [hfilter]
    apply List.Pairwise.imp_of_mem ?_ (sortedClients_sorted t)
    intro a b ha hb hab
    rw [mkPivot_cell_client t (fun he => hT' (he ▸ ha)),
      mkPivot_cell_client t (fun he => hT' (he ▸ hb)),
      finalCellValue_anual, finalCellValue_anual]
    exact hab

/-- Witness for C2 on the spec's end-to-end table. -/
theorem C2_total_row_witness :
    (mkPivot exTable).rowLabels.count "Total" = 1 ∧
    (mkPivot exTable).rowLabels.getLast? = some "Total" ∧
    (mkPivot exTable).cell "Total" ("Q1", "January")
        = (((mkPivot exTable).rowLabels.filter (fun c => c ≠ "Total")).map
            (fun c => (mkPivot exTable).cell c ("Q1", "January"))).sum := by
  have h := C2_total_row exTable (mkPivot exTable) rfl (by decide)
  exact ⟨h.1, h.2.1, h.2.2.1 ("Q1", "January")⟩

/-- Counterexample for C2 as stated: with a client literally named
`"Total"`, `pivot_table.loc['Total'] = pivot_table.sum()` overwrites that
client's row in place.  The `"Total"` row is then not the last row, and
it no longer equals the column-wise sum of the surviving client rows
(`60` against `10`). -/
theorem C2_total_row_counterexample :
    generate_report exTotalClient = some (mkPivot exTotalClient) ∧
    exTotalClient.map (fun r => r.client) = ["Total", "A"] ∧
    (mkPivot exTotalClient).rowLabels = ["Total", "A"] ∧
    (mkPivot exTotalClient).rowLabels.getLast? = some "A" ∧
    (mkPivot exTotalClient).cell "Total" ("Q1", "January") = 60 ∧
    (((mkPivot exTotalClient).rowLabels.filter (fun c => c ≠ "Total")).map
        (fun c => (mkPivot exTotalClient).cell c ("Q1", "January"))).sum = 10 := by
  have hrl : (mkPivot exTotalClient).rowLabels = ["Total", "A"] := by
    norm_num +decide [mkPivot, finalCellValue, anual, quarterTotal, cellAmount, new_cols,
      quarter_cols, quarterLevels, q_months_ordered, q_months, pivotMonths, validRows,
      strLe, charListLe, sortedClients, clients, month_order, quarter_order, monthKey,
      indexLookup, uniq, List.insertionSort, List.orderedInsert, exTotalClient]
  refine ⟨rfl, by decide, hrl, by rw [hrl]; rfl, ?_, ?_⟩
  · norm_num +decide [mkPivot, finalCellValue, anual, quarterTotal, cellAmount, new_cols,
      quarter_cols, quarterLevels, q_months_ordered, q_months, pivotMonths, validRows,
      strLe, charListLe, sortedClients, clients, month_order, quarter_order, monthKey,
      indexLookup, uniq, List.insertionSort, List.orderedInsert, exTotalClient]
  · rw [hrl]
    norm_num +decide [mkPivot, finalCellValue, anual, quarterTotal, cellAmount, new_cols,
      quarter_cols, quarterLevels, q_months_ordered, q_months, pivotMonths, validRows,
      strLe, charListLe, sortedClients, clients, month_order, quarter_order, monthKey,
      indexLookup, uniq, List.insertionSort, List.orderedInsert, exTotalClient]

theorem pairwise_flatMap {α β : Type} {R : β → β → Prop} (f : α → List β)
    (l : List α) (h1 : ∀ a ∈ l, (f a).Pairwise R)
    (h2 : l.Pairwise (fun a b => ∀ x ∈ f a, ∀ y ∈ f b, R x y)) :
    (l.flatMap f).Pairwise R := by
  induction l with
  | nil => simp
  | cons x xs ih =>
    rw [List.flatMap_cons, List.pairwise_append]
    refine ⟨h1 x (List.mem_cons_self x xs),
      ih (fun a ha => h1 a (List.mem_cons_of_mem _ ha)) h2.of_cons, ?_⟩
    intro a ha b hb
    obtain ⟨y, hy, hb2⟩ := List.mem_flatMap.mp hb
    exact (List.pairwise_cons.mp h2).1 y hy a ha b hb2

theorem quarter_order_pairwise :
    quarter_order.Pairwise (fun a b => quarterKey a < quarterKey b) := by
  decide

theorem quarter_cols_pairwise (t : Table) :
    (quarter_cols t).Pairwise (fun a b => quarterKey a < quarterKey b) :=
  List.Pairwise.sublist (List.filter_sublist quarter_order) quarter_order_pairwise

theorem q_months_ordered_pairwise (t : Table) (q : String) :
    (q_months_ordered t q).Pairwise (fun a b => monthKey a ≤ monthKey b) := by
  haveI : IsTotal String (fun a b => monthKey a ≤ monthKey b) :=
    ⟨fun a b => Nat.le_total _ _⟩
  haveI : IsTrans String (fun a b => monthKey a ≤ monthKey b) :=
    ⟨fun _ _ _ => Nat.le_trans⟩
  exact List.sorted_insertionSort _ _

/-- Claim C5: the pivot's columns are the `(quarter, month)` data columns
— quarters in `Q1..Q4` order and months within a quarter in calendar
order regardless of insertion order — followed by the `('Total', q)`
subtotals in quarter order, with `('Total', 'Anual')` last. -/
theorem C5_column_order (t : Table) (P : Pivot)
    (hP : generate_report t = some P) :
    P.cols = new_cols t ++ total_quarter_cols t ++ [("Total", "Anual")] ∧
    P.cols.getLast? = some ("Total", "Anual") ∧
    (new_cols t).Pairwise (fun a b =>
      quarterKey a.1 < quarterKey b.1 ∨ (a.1 = b.1 ∧ monthKey a.2 ≤ monthKey b.2)) ∧
    (total_quarter_cols t).Pairwise (fun a b => quarterKey a.2 < quarterKey b.2) := by
  obtain rfl := generate_report_eq hP
  refine ⟨rfl, ?_, ?_, ?_⟩
  · show (final_cols t).getLast? = _
    unfold final_cols
    exact List.getLast?_concat _
  · unfold new_cols
    apply pairwise_flatMap
    · intro q _
      rw [List.pairwise_map]
      apply List.Pairwise.imp ?_ (q_months_ordered_pairwise t q)
      intro a b hab
      exact Or.inr ⟨rfl, hab⟩
    · apply List.Pairwise.imp ?_ (quarter_cols_pairwise t)
      intro q1 q2 h12 x hx y hy
      obtain ⟨m1, _, rfl⟩ := List.mem_map.mp hx
      obtain ⟨m2, _, rfl⟩ := List.mem_map.mp hy
      exact Or.inl h12
  · unfold total_quarter_cols
    rw [List.pairwise_map]
    apply List.Pairwise.imp ?_
      (List.Pairwise.sublist (List.filter_sublist (quarter_cols t))
        (quarter_cols_pairwise t))
    intro a b hab
    exact hab

/-- Witness for C5: with months inserted in the order March, January,
February, the final column order is January, February, March, then the
Q1 subtotal, then the annual total last. -/
theorem C5_column_order_witness :
    generate_report exShuffled = some (mkPivot exShuffled) ∧
    (mkPivot exShuffled).cols
        = [("Q1", "January"), ("Q1", "February"), ("Q1", "March"),
           ("Total", "Q1"), ("Total", "Anual")] ∧
    (mkPivot exShuffled).cols.getLast? = some ("Total", "Anual") := by
  have h := C5_column_order exShuffled (mkPivot exShuffled) rfl
  exact ⟨rfl, by decide, h.2.1⟩

theorem rowLabels_filter (t : Table) (hT : "Total" ∉ clients t) :
    (mkPivot t).rowLabels.filter (fun c => c ≠ "Total") = sortedClients t := by
  have hT' : "Total" ∉ sortedClients t :=
    fun h => hT ((sortedClients_perm t).mem_iff.mp h)
  have hrl : (mkPivot t).rowLabels = sortedClients t ++ ["Total"] := by
    simp [mkPivot, hT']
  rw [hrl, List.filter_append]
  have h1 : (sortedClients t).filter (fun c => c ≠ "Total") = sortedClients t := by
    apply List.filter_eq_self.mpr
    intro a ha
    simp only [decide_eq_true_eq]
    exact fun he => hT' (he ▸ ha)
  have h2 : (["Total"] : List String).filter (fun c => c ≠ "Total") = [] := by
    simp
  rw [h1, h2, List.append_nil]

/-- Claim C6 (amended part): the client rows of the pivot (every row
ahead of the final `"Total"` row) are sorted by their `('Total',
'Anual')` value in descending order, and they are exactly the distinct
clients of the table, each once.  Nothing is asserted about the relative
order of clients with equal annual totals: the program sorts with
pandas' default unstable quicksort, so it guarantees no tie order — in
particular not the insertion order, as the counterexample shows. -/
theorem C6_sort_descending (t : Table) (P : Pivot)
    (hP : generate_report t = some P) (hT : "Total" ∉ clients t) :
    (P.rowLabels.filter (fun c => c ≠ "Total")).Pairwise
      (fun a b => P.cell b ("Total", "Anual") ≤ P.cell a ("Total", "Anual")) ∧
    List.Perm (P.rowLabels.filter (fun c => c ≠ "Total")) (clients t) := by
  obtain rfl := generate_report_eq hP
  have hT' : "Total" ∉ sortedClients t :=
    fun h => hT ((sortedClients_perm t).mem_iff.mp h)
  rw [rowLabels_filter t hT]
  constructor
  · apply List.Pairwise.imp_of_mem ?_ (sortedClients_sorted t)
    intro a b ha hb hab
    rw [mkPivot_cell_client t (fun he => hT' (he ▸ ha)),
      mkPivot_cell_client t (fun he => hT' (he ▸ hb)),
      finalCellValue_anual, finalCellValue_anual]
    exact hab
  · exact sortedClients_perm t

/-- Witness for C6 on the spec's end-to-end table: the two client rows
are in descending annual order, they are exactly the clients Acme and
Beta, and `Total` is last. -/
theorem C6_sort_descending_witness :
    ((mkPivot exTable).rowLabels.filter (fun c => c ≠ "Total")).Pairwise
      (fun a b => (mkPivot exTable).cell b ("Total", "Anual")
        ≤ (mkPivot exTable).cell a ("Total", "Anual")) ∧
    List.Perm ((mkPivot exTable).rowLabels.filter (fun c => c ≠ "Total"))
      (clients exTable) ∧
    (mkPivot exTable).rowLabels = ["Acme", "Beta", "Total"] := by
  have h := C6_sort_descending exTable (mkPivot exTable) rfl (by decide)
  refine ⟨h.1, h.2, ?_⟩
  norm_num +decide [mkPivot, finalCellValue, anual, quarterTotal, cellAmount, new_cols,
    quarter_cols, quarterLevels, q_months_ordered, q_months, pivotMonths, validRows,
    strLe, charListLe, sortedClients, clients, month_order, quarter_order, monthKey,
    indexLookup, uniq, List.insertionSort, List.orderedInsert, exTable]

/-- Counterexample for C6 as stated: Beta is inserted before Acme and
both clients total `2000`, yet the pivot rows come out `Acme, Beta` —
the tie is broken by the alphabetical pandas index order, not by the
original insertion order `Beta, Acme`. -/
theorem C6_insertion_order_counterexample :
    generate_report exTieOrder = some (mkPivot exTieOrder) ∧
    exTieOrder.map (fun r => r.client) = ["Beta", "Acme"] ∧
    anual exTieOrder "Acme" = anual exTieOrder "Beta" ∧
    (mkPivot exTieOrder).rowLabels = ["Acme", "Beta", "Total"] := by
  refine ⟨rfl, by decide, ?_, ?_⟩
  · norm_num +decide [mkPivot, finalCellValue, anual, quarterTotal, cellAmount, new_cols,
      quarter_cols, quarterLevels, q_months_ordered, q_months, pivotMonths, validRows,
      strLe, charListLe, sortedClients, clients, month_order, quarter_order, monthKey,
      indexLookup, uniq, List.insertionSort, List.orderedInsert, exTieOrder]
  · norm_num +decide [mkPivot, finalCellValue, anual, quarterTotal, cellAmount, new_cols,
      quarter_cols, quarterLevels, q_months_ordered, q_months, pivotMonths, validRows,
      strLe, charListLe, sortedClients, clients, month_order, quarter_order, monthKey,
      indexLookup, uniq, List.insertionSort, List.orderedInsert, exTieOrder]

/-! ## Lemmas on rows with a null month (`Sin Trimestre` rows) -/

theorem validRows_idem (t : Table) : validRows (validRows t) = validRows t := by
  unfold validRows
  rw [List.filter_filter]
  simp

theorem mkPivot_congr {t t' : Table} (h : validRows t = validRows t') :
    mkPivot t = mkPivot t' := by
  have hca : cellAmount t = cellAmount t' := by
    funext c q m
    unfold cellAmount
    rw [h]
  have hql : quarterLevels t = quarterLevels t' := by
    unfold quarterLevels
    rw [h]
  have hqc : quarter_cols t = quarter_cols t' := by
    unfold quarter_cols
    rw [hql]
  have hpm : pivotMonths t = pivotMonths t' := by
    funext q
    unfold pivotMonths
    rw [h]
  have hqm : q_months t = q_months t' := by
    funext q
    unfold q_months
    rw [hpm]
  have hqmo : q_months_ordered t = q_months_ordered t' := by
    funext q
    unfold q_months_ordered
    rw [hqm]
  have hnc : new_cols t = new_cols t' := by
    unfold new_cols
    rw [hqc, hqmo]
  have hqt : quarterTotal t = quarterTotal t' := by
    funext c q
    unfold quarterTotal
    rw [hqm, hca]
  have htqc : total_quarter_cols t = total_quarter_cols t' := by
    unfold total_quarter_cols
    rw [hqc, hqm]
  have han : anual t = anual t' := by
    funext c
    unfold anual
    rw [hnc, hca]
  have hfc : final_cols t = final_cols t' := by
    unfold final_cols
    rw [hnc, htqc]
  have hcl : clients t = clients t' := by
    unfold clients
    rw [h]
  have hsc : sortedClients t = sortedClients t' := by
    unfold sortedClients
    rw [hcl, han]
  have hfcv : finalCellValue t = finalCellValue t' := by
    funext c p
    unfold finalCellValue
    rw [han, hqt, hca]
  unfold mkPivot
  rw [hfc, hsc, hfcv]

theorem gTotal_cons (p : String × ℚ) (l : GTable) (g : String) :
    gTotal (p :: l) g = (if p.1 = g then p.2 else 0) + gTotal l g := by
  by_cases h : p.1 = g <;> simp [gTotal, List.filter_cons, h]

theorem gTotal_erase (t : Table) (r : Record) (hr : r ∈ t) :
    gTotal (clientTable t) r.client
      = r.amount + gTotal (clientTable (t.erase r)) r.client := by
  induction t with
  | nil => cases hr
  | cons x xs ih =>
    by_cases hx : x = r
    · subst hx
      rw [List.erase_cons_head,
        show clientTable (x :: xs) = (x.client, x.amount) :: clientTable xs from rfl,
        gTotal_cons, if_pos rfl]
    · rw [show (x :: xs).erase r = x :: xs.erase r from by
        rw [List.erase_cons, if_neg (by simpa using hx)]]
      have hr' : r ∈ xs := by
        rcases List.mem_cons.mp hr with h | h
        · exact absurd h.symm hx
        · exact h
      rw [show clientTable (x :: xs) = (x.client, x.amount) :: clientTable xs from rfl,
        show clientTable (x :: xs.erase r)
            = (x.client, x.amount) :: clientTable (xs.erase r) from rfl,
        gTotal_cons, gTotal_cons, ih hr']
      ring

theorem validRows_erase (t : Table) (r : Record) (hm : r.month = none) :
    validRows (t.erase r) = validRows t := by
  induction t with
  | nil => rfl
  | cons x xs ih =>
    by_cases hx : x = r
    · subst hx
      rw [List.erase_cons_head]
      unfold validRows
      rw [List.filter_cons]
      have hms : x.month.isSome = false := by
        rw [hm]
        rfl
      simp [hms]
    · rw [show (x :: xs).erase r = x :: xs.erase r from by
        rw [List.erase_cons, if_neg (by simpa using hx)]]
      unfold validRows at ih ⊢
      rw [List.filter_cons, List.filter_cons, ih]

/-- Claim C9 (amended part): a row with an unparsable date gets the
quarter sentinel `"Sin Trimestre"` and causes no failure, and it still
counts in the client-grouped totals used by `compare_versions`; but the
quarter/month pivot of `generate_report` ignores it entirely — the pivot
built from `t` equals the pivot built from `t` without the monthless row,
and more generally equals the pivot of the month-valid rows alone. -/
theorem C9_sin_trimestre (t : Table) (r : Record) (hr : r ∈ t)
    (hm : r.month = none) :
    trimestreColumn none = "Sin Trimestre" ∧
    gTotal (clientTable t) r.client
        = r.amount + gTotal (clientTable (t.erase r)) r.client ∧
    mkPivot t = mkPivot (t.erase r) ∧
    mkPivot t = mkPivot (validRows t) := by
  refine ⟨by decide, gTotal_erase t r hr, ?_, ?_⟩
  · exact mkPivot_congr (validRows_erase t r hm).symm
  · exact mkPivot_congr (validRows_idem t).symm

/-- Witness for C9 on `exSinTrimestre`: the monthless row of client `B`
keeps its `50` in the client-grouped total but leaves the pivot
untouched. -/
theorem C9_sin_trimestre_witness :
    trimestreColumn none = "Sin Trimestre" ∧
    gTotal (clientTable exSinTrimestre) "B"
        = 50 + gTotal (clientTable (exSinTrimestre.erase exSinTrimestreRow)) "B" ∧
    mkPivot exSinTrimestre = mkPivot (exSinTrimestre.erase exSinTrimestreRow) := by
  have hmem : exSinTrimestreRow ∈ exSinTrimestre := by
    unfold exSinTrimestre exSinTrimestreRow
    exact List.mem_cons_of_mem _ (List.mem_cons_self _ _)
  have h := C9_sin_trimestre exSinTrimestre exSinTrimestreRow hmem rfl
  exact ⟨h.1, h.2.1, h.2.2.1⟩

/-- Counterexample for C9 as stated: the monthless row (client `B`,
amount `50`) does *not* appear in the grouped pivot output — client `B`
has no row at all, no `"Sin Trimestre"` column exists, and the grand
annual total is `100`, not `150`. -/
theorem C9_sin_trimestre_counterexample :
    generate_report exSinTrimestre = some (mkPivot exSinTrimestre) ∧
    exSinTrimestre.map (fun r => r.client) = ["A", "B"] ∧
    (mkPivot exSinTrimestre).rowLabels = ["A", "Total"] ∧
    (mkPivot exSinTrimestre).cols
        = [("Q1", "January"), ("Total", "Q1"), ("Total", "Anual")] ∧
    (mkPivot exSinTrimestre).cell "Total" ("Total", "Anual") = 100 := by
  refine ⟨rfl, by decide, ?_, by decide, ?_⟩
  · norm_num +decide [mkPivot, finalCellValue, anual, quarterTotal, cellAmount, new_cols,
      quarter_cols, quarterLevels, q_months_ordered, q_months, pivotMonths, validRows,
      strLe, charListLe, sortedClients, clients, month_order, quarter_order, monthKey,
      indexLookup, uniq, List.insertionSort, List.orderedInsert, exSinTrimestre]
  · norm_num +decide [mkPivot, finalCellValue, anual, quarterTotal, cellAmount, new_cols,
      quarter_cols, quarterLevels, q_months_ordered, q_months, pivotMonths, validRows,
      strLe, charListLe, sortedClients, clients, month_order, quarter_order, monthKey,
      indexLookup, uniq, List.insertionSort, List.orderedInsert, exSinTrimestre]
